import Mathlib

/-!
Verification development for the local-pvc-cleaner controller.

The controller watches node deletions in a Kubernetes-style cluster and
deletes the PVCs, bound PVs and referencing Pods that were anchored to the
deleted node.  We give a shallow embedding of the two source variants
(`src/main.go` and the unnamed variant `src/unnamed/part_000`) over an
explicit snapshot type, with delete calls recorded as a trace and delete
failures driven by an explicit oracle, and prove the spec's claims about
the cleanup engine, the secondary indices and the startup reconciler.
-/

/-- Identity of a namespaced object: the (namespace-name, object-name) pair. -/
abbrev Key := String × String

/-- A PersistentVolumeClaim as the controller reads it: identity, the raw
annotation map, and `Spec.VolumeName` (empty string when unbound). -/
structure PVC where
  ns : String
  name : String
  anns : List (String × String)
  volumeName : String
deriving DecidableEq, Repr

/-- A PersistentVolume: cluster-scoped name, annotation map, and the optional
`Spec.ClaimRef` back-reference (namespace, name of the bound claim). -/
structure PV where
  name : String
  anns : List (String × String)
  claimRef : Option Key
deriving DecidableEq, Repr

/-- A Pod: identity plus its volume list.  Each volume either has no
PersistentVolumeClaim source (`none`) or carries a claim name (possibly
the empty string, as in the Go struct). -/
structure Pod where
  ns : String
  name : String
  volumes : List (Option String)
deriving DecidableEq, Repr

/-- The locally queryable snapshot maintained by the informer factory:
PVCs, PVs, Pods and the names of the Nodes currently in the store. -/
structure Snapshot where
  pvcs : List PVC
  pvs : List PV
  pods : List Pod
  nodes : List String
deriving DecidableEq, Repr

/-- Go map indexing `m[k]` on an annotation map: the stored value, or the
empty string when the key is absent. -/
def annGet (m : List (String × String)) (k : String) : String :=
  ((m.lookup k).getD (""))

/-- Constant `selectedNodeAnnotation` of `src/main.go`. -/
def selectedNodeAnnKey : String := "volume.kubernetes.io/selected-node"

/-- Constant `provisionerAnnotation` of `src/main.go`. -/
def provisionerAnnKey : String := "volume.kubernetes.io/storage-provisioner"

/-- Constant `expectedProvisionerValue` of `src/main.go`. -/
def expectedProvisionerValue : String := "rancher.io/local-path"

/-- One outbound delete call, as issued against the cluster API. -/
inductive DeleteCall where
  | pvc (ns name : String)
  | pv (name : String)
  | pod (ns name : String)
deriving DecidableEq, Repr

/-- A delete-failure oracle: `true` means the delete call succeeds,
`false` means the API call returns an error. -/
abbrev Oracle := DeleteCall → Bool

/-- The oracle under which every delete call succeeds. -/
def allOk : Oracle := fun _ => true

/-- Key-extraction function of the `podByPvc` index in `src/main.go`
(lines 103-119): one key per volume that has a PVC source with a
non-empty claim name. -/
def podPvcKeys (p : Pod) : List String :=
  p.volumes.filterMap (fun v =>
    match v with
    | none => none
    | some claimName => if claimName = ("") then none else some claimName)

/-- Lookup `ByIndex(podByPvcIndex, claimName)` over the pod store: the pods
whose extracted keys contain `claimName`.  Note the key is the bare claim
name; the pod's namespace does not participate. -/
def podsByPvc (s : Snapshot) (claimName : String) : List Pod :=
  s.pods.filter (fun p => claimName ∈ podPvcKeys p)

/-- `deleteVolumes` of `src/main.go` (lines 28-66), as a delete-call trace:
delete the PVC (on failure return); if unbound, return; delete the bound PV
(on failure return); then delete every pod from the `podByPvc` index lookup,
continuing past individual pod-delete failures. -/
def deleteVolumes (o : Oracle) (s : Snapshot) (claim : PVC) : List DeleteCall :=
  let c1 := DeleteCall.pvc claim.ns claim.name
  if o c1 = false then [c1]
  else if claim.volumeName = ("") then [c1]
  else
    let c2 := DeleteCall.pv claim.volumeName
    if o c2 = false then [c1, c2]
    else [c1, c2] ++ (podsByPvc s claim.name).map (fun p => DeleteCall.pod p.ns p.name)

/-- Key-extraction function of the `pvcByNode` index in `src/main.go`
(lines 124-131): no key when the provisioner annotation does not match,
otherwise the single key read from the selected-node annotation
(the empty string when that annotation is absent). -/
def pvcNodeKeys (claim : PVC) : List String :=
  if ¬ (annGet claim.anns provisionerAnnKey = expectedProvisionerValue) then []
  else [annGet claim.anns selectedNodeAnnKey]

/-- Lookup `ByIndex(pvcByNodeIndex, nodeName)` over the PVC store. -/
def pvcsByNode (s : Snapshot) (nodeName : String) : List PVC :=
  s.pvcs.filter (fun claim => nodeName ∈ pvcNodeKeys claim)

/-- `cleanupVolumesByNode` of `src/main.go` (lines 68-78): resolve the PVCs
anchored to the node through the `pvcByNode` index and run `deleteVolumes`
on each. -/
def cleanupVolumesByNode (o : Oracle) (s : Snapshot) (nodeName : String) : List DeleteCall :=
  (pvcsByNode s nodeName).flatMap (deleteVolumes o s)

/-- `GetByKey` existence check against the node store. -/
def nodeExists (s : Snapshot) (nodeName : String) : Bool :=
  s.nodes.contains nodeName

/-- The startup reconciliation loop in `main` of `src/main.go`
(lines 147-167): walk every PVC in the snapshot, skip those whose
provisioner annotation does not match, look the selected-node annotation up
in the node store, and run `deleteVolumes` when the node does not exist. -/
def startupReconcile (o : Oracle) (s : Snapshot) : List DeleteCall :=
  s.pvcs.flatMap (fun claim =>
    if ¬ (annGet claim.anns provisionerAnnKey = expectedProvisionerValue) then []
    else if nodeExists s (annGet claim.anns selectedNodeAnnKey) then []
    else deleteVolumes o s claim)

/-- Constant `selectedNodeAnnotation` of `src/unnamed/part_000`. -/
def part0SelectedNodeAnnKey : String := "local.path.provisioner/selected-node"

/-- Constant `provisionerAnnotation` of `src/unnamed/part_000`. -/
def part0ProvisionerAnnKey : String := "pv.kubernetes.io/provisioned-by"

/-- Constant `expectedProvisionerValue` of `src/unnamed/part_000`. -/
def part0ExpectedProvisionerValue : String := "rancher.io/local-path"

/-- `cleanupPVCsForNode` of `src/unnamed/part_000` (lines 25-47): list all
PVs, keep those whose own annotations carry the node name and the expected
provisioner, and delete the PVC named by the claim reference when present.
No PV or Pod delete is ever issued. -/
def cleanupPVCsForNode (s : Snapshot) (nodeName : String) : List DeleteCall :=
  s.pvs.flatMap (fun vol =>
    if ¬ (annGet vol.anns part0SelectedNodeAnnKey = nodeName) ∨
       ¬ (annGet vol.anns part0ProvisionerAnnKey = part0ExpectedProvisionerValue) then []
    else
      match vol.claimRef with
      | none => []
      | some r => [DeleteCall.pvc r.1 r.2])

/-- Store key of a PVC, as the informer cache computes it. -/
def pvcKey (claim : PVC) : Key := (claim.ns, claim.name)

/-- The delete call issued for a PVC itself. -/
def pvcCall (claim : PVC) : DeleteCall := DeleteCall.pvc claim.ns claim.name

/-- Modelled from the spec: the incrementally maintained PVC-by-node index.
The index library itself is supplied by the external Cluster Resource
Watcher and is not part of `src/`; the spec (section 4.2 and the design
notes) requires a mapping from node name to the set of PVC store keys,
updated on every add/update/delete so that an update removes the object's
old keys before inserting its new ones.  The key-extraction function
`pvcNodeKeys` is the one from `src/main.go`. -/
structure PvcIndexState where
  items : List PVC
  buckets : List (String × List Key)
deriving DecidableEq, Repr

/-- Read one bucket of the index: the keys currently filed under node `n`. -/
def bucketGet : List (String × List Key) → String → List Key
  | [], _ => []
  | b :: bs, n => if b.1 = n then b.2 else bucketGet bs n

/-- Replace the bucket of node `n` with `ks`; `bucketGet` reads the most
recent binding, so older bindings for `n` are shadowed. -/
def bucketSet (bs : List (String × List Key)) (n : String) (ks : List Key) :
    List (String × List Key) :=
  (n, ks) :: bs

/-- Remove a store key from the bucket of node `n`. -/
def bucketRemoveKey (bs : List (String × List Key)) (n : String) (k : Key) :
    List (String × List Key) :=
  bucketSet bs n ((bucketGet bs n).filter (fun j => ¬ (j = k)))

/-- Insert a store key into the bucket of node `n`, without duplication. -/
def bucketAddKey (bs : List (String × List Key)) (n : String) (k : Key) :
    List (String × List Key) :=
  bucketSet bs n (k :: (bucketGet bs n).filter (fun j => ¬ (j = k)))

/-- Remove a PVC's store key from every bucket its extracted keys name. -/
def removeObjKeys (bs : List (String × List Key)) (claim : PVC) :
    List (String × List Key) :=
  (pvcNodeKeys claim).foldl (fun acc n => bucketRemoveKey acc n (pvcKey claim)) bs

/-- Insert a PVC's store key into every bucket its extracted keys name. -/
def addObjKeys (bs : List (String × List Key)) (claim : PVC) :
    List (String × List Key) :=
  (pvcNodeKeys claim).foldl (fun acc n => bucketAddKey acc n (pvcKey claim)) bs

/-- Modelled from the spec: an add or update notification first removes the
stored object's old keys, then inserts the new object's keys, and replaces
the stored object. -/
def upsertPvc (st : PvcIndexState) (claim : PVC) : PvcIndexState :=
  let bs1 :=
    match st.items.find? (fun p => pvcKey p = pvcKey claim) with
    | some old => removeObjKeys st.buckets old
    | none => st.buckets
  { items := claim :: st.items.filter (fun p => ¬ (pvcKey p = pvcKey claim)),
    buckets := addObjKeys bs1 claim }

/-- Modelled from the spec: a delete notification removes the stored
object's keys and the object itself. -/
def deletePvc (st : PvcIndexState) (k : Key) : PvcIndexState :=
  let bs1 :=
    match st.items.find? (fun p => pvcKey p = k) with
    | some old => removeObjKeys st.buckets old
    | none => st.buckets
  { items := st.items.filter (fun p => ¬ (pvcKey p = k)), buckets := bs1 }

/-- One notification delivered by the Resource Watcher for the PVC type. -/
inductive PvcEvent where
  | add (claim : PVC)
  | update (claim : PVC)
  | del (k : Key)
deriving DecidableEq, Repr

/-- Apply one notification to the indexed store. -/
def applyEvent (st : PvcIndexState) : PvcEvent → PvcIndexState
  | .add claim => upsertPvc st claim
  | .update claim => upsertPvc st claim
  | .del k => deletePvc st k

/-- Apply a sequence of notifications, starting from the empty store. -/
def applyEvents (evs : List PvcEvent) : PvcIndexState :=
  evs.foldl applyEvent ⟨[], []⟩

/-- Index lookup through the incrementally maintained buckets: resolve each
stored key of the bucket back to its object. -/
def byNodeLookup (st : PvcIndexState) (n : String) : List PVC :=
  (bucketGet st.buckets n).filterMap (fun k => st.items.find? (fun p => pvcKey p = k))

/-- The snapshot left behind by a batch of delete calls: every object a
successful delete targeted is gone from the store. -/
def applyDeletes (s : Snapshot) (cs : List DeleteCall) : Snapshot :=
  { pvcs := s.pvcs.filter (fun claim => ¬ (pvcCall claim ∈ cs)),
    pvs := s.pvs.filter (fun vol => ¬ (DeleteCall.pv vol.name ∈ cs)),
    pods := s.pods.filter (fun p => ¬ (DeleteCall.pod p.ns p.name ∈ cs)),
    nodes := s.nodes }

/-- Recognize a Pod delete call. -/
def isPodDelete : DeleteCall → Bool
  | DeleteCall.pod _ _ => true
  | _ => false

/-- The explicit non-indexed resolution strategy of the spec (section 4.3
step 1), realized by the `part_000` variant: scan all PVs, keep those whose
own annotations match the node and provisioner, and follow the claim
reference back to the stored PVCs. -/
def resolveByPVScan (s : Snapshot) (n : String) : List PVC :=
  s.pvs.flatMap (fun vol =>
    if ¬ (annGet vol.anns part0SelectedNodeAnnKey = n) ∨
       ¬ (annGet vol.anns part0ProvisionerAnnKey = part0ExpectedProvisionerValue) then []
    else
      match vol.claimRef with
      | none => []
      | some r => s.pvcs.filter (fun claim => pvcKey claim = r))

/-- An oracle that fails every PV delete and lets everything else succeed. -/
def pvFailOracle : Oracle := fun d =>
  match d with
  | DeleteCall.pv _ => false
  | _ => true

/-- An oracle that fails every PVC delete and lets everything else succeed. -/
def pvcFailOracle : Oracle := fun d =>
  match d with
  | DeleteCall.pvc _ _ => false
  | _ => true

/-- Fixture: an in-scope PVC anchored to node-a that is not bound to any
volume. -/
def pvcUnbound : PVC :=
  ⟨"ns1", "data-0",
    [(provisionerAnnKey, expectedProvisionerValue), (selectedNodeAnnKey, "node-a")],
    ""⟩

/-- Fixture: an in-scope PVC anchored to node-a, bound to volume pv-1. -/
def pvcBound : PVC :=
  ⟨"ns1", "data-0",
    [(provisionerAnnKey, expectedProvisionerValue), (selectedNodeAnnKey, "node-a")],
    "pv-1"⟩

/-- Fixture: a pod in the claim's namespace referencing claim data-0. -/
def podSameNs : Pod := ⟨"ns1", "app-0", [some ("data-0")]⟩

/-- Fixture: a pod in a different namespace whose volume names claim data-0. -/
def podOtherNs : Pod := ⟨"ns2", "other-0", [some ("data-0")]⟩

/-- Fixture: a PV named pv-1 carrying no annotations at all. -/
def pvPlain : PV := ⟨"pv-1", [], none⟩

/-- Fixture snapshot: the unbound claim with its referencing pod, no nodes. -/
def snapUnbound : Snapshot := ⟨[pvcUnbound], [], [podSameNs], []⟩

/-- Fixture snapshot: the bound claim with a pod in another namespace. -/
def snapCrossNs : Snapshot := ⟨[pvcBound], [], [podOtherNs], []⟩

/-- Fixture snapshot: the bound claim together with the annotation-free PV
it is bound to. -/
def snapPvUnowned : Snapshot := ⟨[pvcBound], [pvPlain], [], []⟩

/-- Fixture snapshot: the bound claim with a pod in its own namespace. -/
def snapBoundPod : Snapshot := ⟨[pvcBound], [], [podSameNs], []⟩

/-- Fixture: an in-scope PVC anchored to a node that is gone, bound to the
same volume as a healthy claim. -/
def pvcOrphanShared : PVC :=
  ⟨"ns1", "orphan-0",
    [(provisionerAnnKey, expectedProvisionerValue), (selectedNodeAnnKey, "gone-node")],
    "pv-shared"⟩

/-- Fixture: an in-scope PVC anchored to a live node, bound to pv-shared. -/
def pvcHealthy : PVC :=
  ⟨"ns1", "healthy-0",
    [(provisionerAnnKey, expectedProvisionerValue), (selectedNodeAnnKey, "node-a")],
    "pv-shared"⟩

/-- Fixture snapshot: the orphaned and the healthy claim share a bound PV;
only node-a exists. -/
def snapShared : Snapshot := ⟨[pvcOrphanShared, pvcHealthy], [], [], ["node-a"]⟩

/-- Fixture: an in-scope PVC with no selected-node annotation at all. -/
def pvcNoAnchor : PVC :=
  ⟨"ns1", "stray-0", [(provisionerAnnKey, expectedProvisionerValue)], ""⟩

/-- Fixture snapshot: the unanchored claim in a cluster whose only node is
node-b. -/
def snapNoAnchor : Snapshot := ⟨[pvcNoAnchor], [], [], ["node-b"]⟩

/-- Fixture: a PV carrying the `part_000` annotations for node-a with a claim
reference to the bound claim. -/
def pvPart0 : PV :=
  ⟨"pv-1",
    [(part0SelectedNodeAnnKey, "node-a"),
     (part0ProvisionerAnnKey, part0ExpectedProvisionerValue)],
    some ("ns1", "data-0")⟩

/-- Fixture snapshot: a consistent pairing of the bound claim and its
`part_000`-annotated PV. -/
def snapConsistent : Snapshot := ⟨[pvcBound], [pvPart0], [], []⟩

/-- Fixture snapshot: the bound claim with no PV objects at all. -/
def snapNoPv : Snapshot := ⟨[pvcBound], [], [], []⟩

theorem bucketGet_bucketSet (bs : List (String × List Key)) (n m : String)
    (ks : List Key) :
    bucketGet (bucketSet bs n ks) m = if n = m then ks else bucketGet bs m := by
  simp [bucketSet, bucketGet]

theorem mem_bucketGet_removeKey (bs : List (String × List Key)) (n m : String)
    (k k0 : Key) :
    k ∈ bucketGet (bucketRemoveKey bs m k0) n ↔
      k ∈ bucketGet bs n ∧ ¬ (n = m ∧ k = k0) := by
  unfold bucketRemoveKey
  rw [bucketGet_bucketSet]
  by_cases h : m = n
  · subst h
    simp [List.mem_filter]
  · have h' : ¬ (n = m) := fun hn => h hn.symm
    simp [h, h']

theorem mem_bucketGet_addKey (bs : List (String × List Key)) (n m : String)
    (k k0 : Key) :
    k ∈ bucketGet (bucketAddKey bs m k0) n ↔
      ((n = m ∧ k = k0) ∨ (k ∈ bucketGet bs n ∧ ¬ (n = m ∧ k = k0))) := by
  unfold bucketAddKey
  rw [bucketGet_bucketSet]
  by_cases h : m = n
  · subst h
    simp [List.mem_cons, List.mem_filter]
  · have h' : ¬ (n = m) := fun hn => h hn.symm
    simp [h, h']

theorem mem_bucketGet_removeKeys (ks : List String) (bs : List (String × List Key))
    (n : String) (k k0 : Key) :
    k ∈ bucketGet (ks.foldl (fun acc m => bucketRemoveKey acc m k0) bs) n ↔
      k ∈ bucketGet bs n ∧ ¬ (n ∈ ks ∧ k = k0) := by
  induction ks generalizing bs with
  | nil => simp
  | cons m rest ih =>
    rw [List.foldl_cons, ih, mem_bucketGet_removeKey]
    simp only [List.mem_cons]
    tauto

theorem mem_bucketGet_addKeys (ks : List String) (bs : List (String × List Key))
    (n : String) (k k0 : Key) :
    k ∈ bucketGet (ks.foldl (fun acc m => bucketAddKey acc m k0) bs) n ↔
      ((n ∈ ks ∧ k = k0) ∨ (k ∈ bucketGet bs n ∧ ¬ (n ∈ ks ∧ k = k0))) := by
  induction ks generalizing bs with
  | nil => simp
  | cons m rest ih =>
    rw [List.foldl_cons, ih, mem_bucketGet_addKey]
    simp only [List.mem_cons]
    tauto

theorem mem_bucketGet_removeObjKeys (bs : List (String × List Key)) (claim : PVC)
    (n : String) (k : Key) :
    k ∈ bucketGet (removeObjKeys bs claim) n ↔
      k ∈ bucketGet bs n ∧ ¬ (n ∈ pvcNodeKeys claim ∧ k = pvcKey claim) :=
  mem_bucketGet_removeKeys _ _ _ _ _

theorem mem_bucketGet_addObjKeys (bs : List (String × List Key)) (claim : PVC)
    (n : String) (k : Key) :
    k ∈ bucketGet (addObjKeys bs claim) n ↔
      ((n ∈ pvcNodeKeys claim ∧ k = pvcKey claim) ∨
        (k ∈ bucketGet bs n ∧ ¬ (n ∈ pvcNodeKeys claim ∧ k = pvcKey claim))) :=
  mem_bucketGet_addKeys _ _ _ _ _

/-- Well-formedness of the indexed store: stored keys are unique, and a key
sits in the bucket of node `n` exactly when its object is stored and
extracts the key `n`. -/
def IndexGood (st : PvcIndexState) : Prop :=
  (st.items.map pvcKey).Nodup ∧
    ∀ n k, k ∈ bucketGet st.buckets n ↔
      ∃ claim, claim ∈ st.items ∧ pvcKey claim = k ∧ n ∈ pvcNodeKeys claim

theorem indexGood_empty : IndexGood ⟨[], []⟩ := by
  constructor
  · simp
  · intro n k
    simp [bucketGet]

theorem pvcKey_eq_of_find? {items : List PVC} {k : Key} {old : PVC}
    (h : items.find? (fun p => pvcKey p = k) = some old) : pvcKey old = k := by
  have := List.find?_some h
  simpa using this

theorem find?_eq_none_key {items : List PVC} {k : Key}
    (h : items.find? (fun p => pvcKey p = k) = none) :
    ∀ p ∈ items, ¬ (pvcKey p = k) := by
  intro p hp
  have := List.find?_eq_none.mp h p hp
  simpa using this

theorem pvc_unique_of_nodup {items : List PVC}
    (hnd : (items.map pvcKey).Nodup) {p q : PVC}
    (hp : p ∈ items) (hq : q ∈ items) (h : pvcKey p = pvcKey q) : p = q :=
  List.inj_on_of_nodup_map hnd hp hq h

theorem upsertPvc_items (st : PvcIndexState) (claim : PVC) :
    (upsertPvc st claim).items
      = claim :: st.items.filter (fun p => ¬ (pvcKey p = pvcKey claim)) := by
  simp [upsertPvc]

theorem upsertPvc_nodup (st : PvcIndexState) (claim : PVC)
    (hnd : (st.items.map pvcKey).Nodup) :
    ((upsertPvc st claim).items.map pvcKey).Nodup := by
  rw [upsertPvc_items]
  simp only [List.map_cons, List.nodup_cons]
  refine ⟨?_, ?_⟩
  · intro hmem
    obtain ⟨p, hp, hkp⟩ := List.mem_map.mp hmem
    have hp2 := List.mem_filter.mp hp
    have hne : ¬ (pvcKey p = pvcKey claim) := by simpa using hp2.2
    exact hne hkp
  · exact List.Nodup.sublist ((List.filter_sublist _).map pvcKey) hnd

theorem indexGood_upsert (st : PvcIndexState) (claim : PVC) (h : IndexGood st) :
    IndexGood (upsertPvc st claim) := by
  obtain ⟨hnd, hbk⟩ := h
  refine ⟨upsertPvc_nodup st claim hnd, ?_⟩
  intro n k
  cases hfind : st.items.find? (fun p => pvcKey p = pvcKey claim) with
  | none =>
    have hnone := find?_eq_none_key hfind
    have hbuckets : (upsertPvc st claim).buckets = addObjKeys st.buckets claim := by
      simp [upsertPvc, hfind]
    rw [hbuckets, upsertPvc_items, mem_bucketGet_addObjKeys]
    constructor
    · rintro (⟨hn, hk⟩ | ⟨hmem, hnot⟩)
      · exact ⟨claim, List.mem_cons_self _ _, hk.symm, hn⟩
      · obtain ⟨p, hp, hkp, hnp⟩ := (hbk n k).mp hmem
        have hpk : ¬ (pvcKey p = pvcKey claim) := hnone p hp
        exact ⟨p, List.mem_cons_of_mem _ (List.mem_filter.mpr ⟨hp, by simpa using hpk⟩),
          hkp, hnp⟩
    · rintro ⟨p, hp, hkp, hnp⟩
      rcases List.mem_cons.mp hp with rfl | hp'
      · exact Or.inl ⟨hnp, hkp.symm⟩
      · have hp2 := List.mem_filter.mp hp'
        have hpk : ¬ (pvcKey p = pvcKey claim) := by simpa using hp2.2
        refine Or.inr ⟨(hbk n k).mpr ⟨p, hp2.1, hkp, hnp⟩, ?_⟩
        rintro ⟨hn, hk⟩
        exact hpk (hkp.trans hk)
  | some old =>
    have hold_mem : old ∈ st.items := List.mem_of_find?_eq_some hfind
    have hold_key : pvcKey old = pvcKey claim := pvcKey_eq_of_find? hfind
    have hbuckets : (upsertPvc st claim).buckets
        = addObjKeys (removeObjKeys st.buckets old) claim := by
      simp [upsertPvc, hfind]
    rw [hbuckets, upsertPvc_items, mem_bucketGet_addObjKeys,
      mem_bucketGet_removeObjKeys]
    constructor
    · rintro (⟨hn, hk⟩ | ⟨⟨hmem, hnotold⟩, hnotnew⟩)
      · exact ⟨claim, List.mem_cons_self _ _, hk.symm, hn⟩
      · obtain ⟨p, hp, hkp, hnp⟩ := (hbk n k).mp hmem
        have hpk : ¬ (pvcKey p = pvcKey claim) := by
          intro he
          have hpold : p = old := pvc_unique_of_nodup hnd hp hold_mem
            (he.trans hold_key.symm)
          subst hpold
          exact hnotold ⟨hnp, hkp.symm⟩
        exact ⟨p, List.mem_cons_of_mem _ (List.mem_filter.mpr ⟨hp, by simpa using hpk⟩),
          hkp, hnp⟩
    · rintro ⟨p, hp, hkp, hnp⟩
      rcases List.mem_cons.mp hp with rfl | hp'
      · exact Or.inl ⟨hnp, hkp.symm⟩
      · have hp2 := List.mem_filter.mp hp'
        have hpk : ¬ (pvcKey p = pvcKey claim) := by simpa using hp2.2
        refine Or.inr ⟨⟨(hbk n k).mpr ⟨p, hp2.1, hkp, hnp⟩, ?_⟩, ?_⟩
        · rintro ⟨hn, hk⟩
          exact hpk (hkp.trans (hk.trans hold_key))
        · rintro ⟨hn, hk⟩
          exact hpk (hkp.trans hk)

theorem indexGood_delete (st : PvcIndexState) (k0 : Key) (h : IndexGood st) :
    IndexGood (deletePvc st k0) := by
  obtain ⟨hnd, hbk⟩ := h
  have hitems : (deletePvc st k0).items
      = st.items.filter (fun p => ¬ (pvcKey p = k0)) := by
    simp [deletePvc]
  refine ⟨?_, ?_⟩
  · rw [hitems]
    exact List.Nodup.sublist ((List.filter_sublist _).map pvcKey) hnd
  · intro n k
    cases hfind : st.items.find? (fun p => pvcKey p = k0) with
    | none =>
      have hnone := find?_eq_none_key hfind
      have hbuckets : (deletePvc st k0).buckets = st.buckets := by
        simp [deletePvc, hfind]
      rw [hbuckets, hitems]
      constructor
      · intro hm
        obtain ⟨p, hp, hkp, hnp⟩ := (hbk n k).mp hm
        exact ⟨p, List.mem_filter.mpr ⟨hp, by simpa using hnone p hp⟩, hkp, hnp⟩
      · rintro ⟨p, hp, hkp, hnp⟩
        exact (hbk n k).mpr ⟨p, (List.mem_filter.mp hp).1, hkp, hnp⟩
    | some old =>
      have hold_mem : old ∈ st.items := List.mem_of_find?_eq_some hfind
      have hold_key : pvcKey old = k0 := pvcKey_eq_of_find? hfind
      have hbuckets : (deletePvc st k0).buckets = removeObjKeys st.buckets old := by
        simp [deletePvc, hfind]
      rw [hbuckets, hitems, mem_bucketGet_removeObjKeys]
      constructor
      · rintro ⟨hm, hnot⟩
        obtain ⟨p, hp, hkp, hnp⟩ := (hbk n k).mp hm
        have hpk : ¬ (pvcKey p = k0) := by
          intro he
          have hpold : p = old := pvc_unique_of_nodup hnd hp hold_mem
            (he.trans hold_key.symm)
          subst hpold
          exact hnot ⟨hnp, hkp.symm⟩
        exact ⟨p, List.mem_filter.mpr ⟨hp, by simpa using hpk⟩, hkp, hnp⟩
      · rintro ⟨p, hp, hkp, hnp⟩
        have hp2 := List.mem_filter.mp hp
        have hpk : ¬ (pvcKey p = k0) := by simpa using hp2.2
        refine ⟨(hbk n k).mpr ⟨p, hp2.1, hkp, hnp⟩, ?_⟩
        rintro ⟨hn, hk⟩
        exact hpk (hkp.trans (hk.trans hold_key))

theorem indexGood_applyEvent (st : PvcIndexState) (e : PvcEvent) (h : IndexGood st) :
    IndexGood (applyEvent st e) := by
  cases e with
  | add claim => exact indexGood_upsert st claim h
  | update claim => exact indexGood_upsert st claim h
  | del k => exact indexGood_delete st k h

theorem indexGood_foldl (evs : List PvcEvent) (st : PvcIndexState) (h : IndexGood st) :
    IndexGood (evs.foldl applyEvent st) := by
  induction evs generalizing st with
  | nil => simpa using h
  | cons e rest ih => exact ih _ (indexGood_applyEvent st e h)

theorem indexGood_applyEvents (evs : List PvcEvent) : IndexGood (applyEvents evs) :=
  indexGood_foldl evs _ indexGood_empty

theorem find?_key_eq_some_iff {items : List PVC} (hnd : (items.map pvcKey).Nodup)
    (k : Key) (claim : PVC) :
    items.find? (fun p => pvcKey p = k) = some claim ↔
      claim ∈ items ∧ pvcKey claim = k := by
  constructor
  · intro h
    exact ⟨List.mem_of_find?_eq_some h, pvcKey_eq_of_find? h⟩
  · rintro ⟨hmem, hkey⟩
    cases hfind : items.find? (fun p => pvcKey p = k) with
    | none => exact absurd hkey (find?_eq_none_key hfind claim hmem)
    | some q =>
      have hq_mem : q ∈ items := List.mem_of_find?_eq_some hfind
      have hq_key : pvcKey q = k := pvcKey_eq_of_find? hfind
      have : q = claim := pvc_unique_of_nodup hnd hq_mem hmem (hq_key.trans hkey.symm)
      rw [this]

theorem mem_byNodeLookup (st : PvcIndexState) (h : IndexGood st) (n : String)
    (claim : PVC) :
    claim ∈ byNodeLookup st n ↔ claim ∈ st.items ∧ n ∈ pvcNodeKeys claim := by
  obtain ⟨hnd, hbk⟩ := h
  unfold byNodeLookup
  rw [List.mem_filterMap]
  constructor
  · rintro ⟨k, hk, hfind⟩
    obtain ⟨hmem, hkey⟩ := (find?_key_eq_some_iff hnd k claim).mp hfind
    obtain ⟨p, hp, hkp, hnp⟩ := (hbk n k).mp hk
    have hpc : p = claim := pvc_unique_of_nodup hnd hp hmem (hkp.trans hkey.symm)
    subst hpc
    exact ⟨hmem, hnp⟩
  · rintro ⟨hmem, hn⟩
    exact ⟨pvcKey claim, (hbk n _).mpr ⟨claim, hmem, rfl, hn⟩,
      (find?_key_eq_some_iff hnd _ claim).mpr ⟨hmem, rfl⟩⟩

theorem pvcCall_mem_deleteVolumes (o : Oracle) (s : Snapshot) (claim : PVC) :
    pvcCall claim ∈ deleteVolumes o s claim := by
  unfold deleteVolumes pvcCall
  by_cases h1 : o (DeleteCall.pvc claim.ns claim.name) = false
  · simp [h1]
  · by_cases h2 : claim.volumeName = ("")
    · simp [h1, h2]
    · by_cases h3 : o (DeleteCall.pv claim.volumeName) = false
      · simp [h1, h2, h3]
      · simp [h1, h2, h3]

theorem deleteVolumes_of_pvcFail (o : Oracle) (s : Snapshot) (claim : PVC)
    (h : o (pvcCall claim) = false) :
    deleteVolumes o s claim = [pvcCall claim] := by
  unfold pvcCall at h
  simp [deleteVolumes, pvcCall, h]

theorem mem_deleteVolumes_cases (o : Oracle) (s : Snapshot) (claim : PVC)
    (d : DeleteCall) (hd : d ∈ deleteVolumes o s claim) :
    d = pvcCall claim ∨
      (¬ (claim.volumeName = ("")) ∧ d = DeleteCall.pv claim.volumeName) ∨
      (¬ (claim.volumeName = ("")) ∧
        ∃ p, p ∈ podsByPvc s claim.name ∧ d = DeleteCall.pod p.ns p.name) := by
  unfold deleteVolumes at hd
  by_cases h1 : o (DeleteCall.pvc claim.ns claim.name) = false
  · simp [h1] at hd
    exact Or.inl (by simp [hd, pvcCall])
  · by_cases h2 : claim.volumeName = ("")
    · simp [h1, h2] at hd
      exact Or.inl (by simp [hd, pvcCall])
    · by_cases h3 : o (DeleteCall.pv claim.volumeName) = false
      · simp [h1, h2, h3] at hd
        rcases hd with hd | hd
        · exact Or.inl (by simp [hd, pvcCall])
        · exact Or.inr (Or.inl ⟨h2, hd⟩)
      · simp [h1, h2, h3] at hd
        rcases hd with hd | hd | hd
        · exact Or.inl (by simp [hd, pvcCall])
        · exact Or.inr (Or.inl ⟨h2, hd⟩)
        · obtain ⟨p, hp, hdp⟩ := hd
          exact Or.inr (Or.inr ⟨h2, p, hp, hdp.symm⟩)

theorem pvcCall_eq_iff (p q : PVC) :
    pvcCall p = pvcCall q ↔ pvcKey p = pvcKey q := by
  simp [pvcCall, pvcKey, Prod.ext_iff]

theorem count_pvcCall_deleteVolumes (o : Oracle) (s : Snapshot) (claim q : PVC) :
    (deleteVolumes o s claim).count (pvcCall q)
      = if pvcKey q = pvcKey claim then 1 else 0 := by
  have hpod : ((podsByPvc s claim.name).map
      (fun p => DeleteCall.pod p.ns p.name)).count (pvcCall q) = 0 := by
    refine List.count_eq_zero.mpr ?_
    intro hmem
    obtain ⟨p, _, hp⟩ := List.mem_map.mp hmem
    simp [pvcCall] at hp
  have hcount1 : ([pvcCall claim] : List DeleteCall).count (pvcCall q)
      = if pvcKey q = pvcKey claim then 1 else 0 := by
    by_cases hqc : pvcKey q = pvcKey claim
    · rw [if_pos hqc]
      have : pvcCall q = pvcCall claim := (pvcCall_eq_iff q claim).mpr hqc
      simp [this]
    · rw [if_neg hqc]
      have : ¬ (pvcCall q = pvcCall claim) :=
        fun h => hqc ((pvcCall_eq_iff q claim).mp h)
      simp [List.count_cons, this]
  have hpvzero : ∀ v, (([DeleteCall.pv v] : List DeleteCall).count (pvcCall q)) = 0 := by
    intro v
    have : ¬ (pvcCall q = DeleteCall.pv v) := by simp [pvcCall]
    simp [List.count_cons, this]
  by_cases h1 : o (pvcCall claim) = false
  · rw [deleteVolumes_of_pvcFail o s claim h1, hcount1]
  · have h1' : ¬ (o (DeleteCall.pvc claim.ns claim.name) = false) := by
      unfold pvcCall at h1; exact h1
    by_cases h2 : claim.volumeName = ("")
    · have hshape : deleteVolumes o s claim = [pvcCall claim] := by
        unfold deleteVolumes pvcCall
        simp [h1', h2]
      rw [hshape, hcount1]
    · by_cases h3 : o (DeleteCall.pv claim.volumeName) = false
      · have hshape : deleteVolumes o s claim
            = [pvcCall claim] ++ [DeleteCall.pv claim.volumeName] := by
          unfold deleteVolumes pvcCall
          simp [h1', h2, h3]
        rw [hshape, List.count_append, hcount1, hpvzero]
        simp
      · have hshape : deleteVolumes o s claim
            = [pvcCall claim] ++ ([DeleteCall.pv claim.volumeName] ++
              (podsByPvc s claim.name).map (fun p => DeleteCall.pod p.ns p.name)) := by
          unfold deleteVolumes pvcCall
          simp [h1', h2, h3]
        rw [hshape, List.count_append, List.count_append, hcount1, hpvzero, hpod]
        simp

/-- C1 (amended): with every delete call succeeding, `cleanupVolumesByNode`
issues, for each resolved PVC in resolution order, one delete of the PVC
itself, then — only when the PVC is bound — one delete of its bound PV
followed by one delete of each pod the pod index returns for the claim
name; every pod delete in the batch originates from a bound resolved PVC,
so pods referencing only unbound resolved PVCs are never deleted. -/
theorem C1_cleanup_completeness (s : Snapshot) (n : String) :
    (cleanupVolumesByNode allOk s n
      = (pvcsByNode s n).flatMap (fun claim =>
          pvcCall claim ::
            (if claim.volumeName = ("") then []
             else DeleteCall.pv claim.volumeName ::
               (podsByPvc s claim.name).map (fun p => DeleteCall.pod p.ns p.name)))) ∧
    (∀ a b, DeleteCall.pod a b ∈ cleanupVolumesByNode allOk s n →
      ∃ claim, claim ∈ pvcsByNode s n ∧ ¬ (claim.volumeName = ("")) ∧
        ∃ p, p ∈ podsByPvc s claim.name ∧ p.ns = a ∧ p.name = b) := by
  constructor
  · unfold cleanupVolumesByNode
    congr 1
    funext claim
    unfold deleteVolumes pvcCall
    by_cases h2 : claim.volumeName = ("") <;> simp [allOk, h2]
  · intro a b hmem
    obtain ⟨claim, hclaim, hd⟩ := List.mem_flatMap.mp hmem
    rcases mem_deleteVolumes_cases _ _ _ _ hd with h | ⟨_, h⟩ | ⟨hb, p, hp, h⟩
    · simp [pvcCall] at h
    · simp at h
    · refine ⟨claim, hclaim, hb, p, hp, ?_, ?_⟩
      · cases h; rfl
      · cases h; rfl

/-- Witness for C1 at the worked example of the spec: one bound claim, its
PV and its referencing pod. -/
theorem C1_cleanup_completeness_witness :
    ∃ claim, claim ∈ pvcsByNode snapBoundPod ("node-a") ∧
      ¬ (claim.volumeName = ("")) ∧
      ∃ p, p ∈ podsByPvc snapBoundPod claim.name ∧
        p.ns = podSameNs.ns ∧ p.name = podSameNs.name :=
  (C1_cleanup_completeness snapBoundPod ("node-a")).2 (podSameNs.ns) (podSameNs.name)
    (by decide)

/-- C1 counterexample: an unbound in-scope PVC anchored to node-a with a
referencing pod; the batch deletes the PVC but never the pod, although the
claim as stated requires a delete for every pod referencing any PVC of the
batch. -/
theorem C1_cex :
    pvcUnbound ∈ pvcsByNode snapUnbound ("node-a") ∧
    podSameNs ∈ podsByPvc snapUnbound (pvcUnbound.name) ∧
    cleanupVolumesByNode allOk snapUnbound ("node-a") = [pvcCall pvcUnbound] ∧
    ¬ (DeleteCall.pod (podSameNs.ns) (podSameNs.name)
        ∈ cleanupVolumesByNode allOk snapUnbound ("node-a")) := by
  decide

/-- C2 (amended): the pod index lookup for a claim name returns exactly the
pods — in any namespace — with at least one volume entry naming that claim,
and the per-claim batch deletes each of them at the pod's own concrete
(namespace, name) pair; the deletes are not restricted to the claim's own
namespace. -/
theorem C2_pod_resolution (s : Snapshot) (c : String) (p : Pod) :
    (p ∈ podsByPvc s c ↔ p ∈ s.pods ∧ c ∈ podPvcKeys p) ∧
    (∀ claim : PVC, (deleteVolumes allOk s claim).filter isPodDelete
      = (if claim.volumeName = ("") then []
         else (podsByPvc s claim.name).map (fun q => DeleteCall.pod q.ns q.name))) := by
  constructor
  · constructor
    · intro h
      have h2 := List.mem_filter.mp h
      exact ⟨h2.1, by simpa using h2.2⟩
    · rintro ⟨h1, h2⟩
      exact List.mem_filter.mpr ⟨h1, by simpa using h2⟩
  · intro claim
    unfold deleteVolumes
    by_cases h2 : claim.volumeName = ("")
    · simp [allOk, h2, isPodDelete]
    · simp [allOk, h2, isPodDelete, List.filter_map, Function.comp]
      congr 1
      refine List.filter_eq_self.mpr ?_
      intro q hq
      simp [isPodDelete]

/-- Witness for C2 at a concrete snapshot: the cross-namespace pod is
returned by the index for the bound claim's name. -/
theorem C2_pod_resolution_witness :
    podOtherNs ∈ podsByPvc snapCrossNs ("data-0") :=
  ((C2_pod_resolution snapCrossNs ("data-0") podOtherNs).1).mpr
    ⟨by decide, by decide⟩

/-- C2 counterexample: cleaning up PVC ns1/data-0 deletes pod ns2/other-0,
which lives in a different namespace than the claim, contradicting the
claim that only pods of the claim's namespace are deleted. -/
theorem C2_cex :
    pvcBound.ns = ("ns1") ∧ podOtherNs.ns = ("ns2") ∧ ¬ (("ns2" : String) = ("ns1")) ∧
    DeleteCall.pod ("ns2") ("other-0")
      ∈ cleanupVolumesByNode allOk snapCrossNs ("node-a") := by
  decide

/-- C4 (amended): a failed PVC delete aborts the claim's whole batch (no PV
or pod deletes are attempted); a failed PV delete aborts the pod deletes;
only inside the pod loop does a failure leave the remaining deletions
unaffected — once the PVC and PV deletes succeed, every indexed pod's
delete is attempted regardless of the pod-level outcomes. -/
theorem C4_failure_behavior (o : Oracle) (s : Snapshot) (claim : PVC) :
    (o (pvcCall claim) = false → deleteVolumes o s claim = [pvcCall claim]) ∧
    (o (pvcCall claim) = true → ¬ (claim.volumeName = ("")) →
      o (DeleteCall.pv claim.volumeName) = false →
      deleteVolumes o s claim = [pvcCall claim, DeleteCall.pv claim.volumeName]) ∧
    (o (pvcCall claim) = true → ¬ (claim.volumeName = ("")) →
      o (DeleteCall.pv claim.volumeName) = true →
      ∀ p, p ∈ podsByPvc s claim.name →
        DeleteCall.pod p.ns p.name ∈ deleteVolumes o s claim) := by
  refine ⟨fun h1 => deleteVolumes_of_pvcFail o s claim h1,
    fun h1 h2 h3 => ?_, fun h1 h2 h3 p hp => ?_⟩
  · unfold pvcCall at h1
    unfold deleteVolumes pvcCall
    simp [h1, h2, h3]
  · unfold pvcCall at h1
    have hshape : deleteVolumes o s claim
        = [DeleteCall.pvc claim.ns claim.name] ++ ([DeleteCall.pv claim.volumeName] ++
          (podsByPvc s claim.name).map (fun q => DeleteCall.pod q.ns q.name)) := by
      unfold deleteVolumes
      simp [h1, h2, h3]
    rw [hshape]
    simp only [List.mem_append]
    exact Or.inr (Or.inr (List.mem_map.mpr ⟨p, hp, rfl⟩))

/-- Witness for C4: under an oracle failing every PV delete, the bound
claim's batch stops after the PV delete attempt. -/
theorem C4_failure_behavior_witness :
    deleteVolumes pvFailOracle snapBoundPod pvcBound
      = [pvcCall pvcBound, DeleteCall.pv (pvcBound.volumeName)] :=
  (C4_failure_behavior pvFailOracle snapBoundPod pvcBound).2.1
    (by decide) (by decide) (by decide)

/-- C4 counterexample: after a failed PV delete the referencing pod is never
deleted, although the claim as stated requires the pod deletes to still be
attempted. -/
theorem C4_cex :
    pvFailOracle (DeleteCall.pv (pvcBound.volumeName)) = false ∧
    podSameNs ∈ podsByPvc snapBoundPod (pvcBound.name) ∧
    ¬ (DeleteCall.pod (podSameNs.ns) (podSameNs.name)
        ∈ deleteVolumes pvFailOracle snapBoundPod pvcBound) := by
  decide

/-- C5: the node batch is the concatenation of per-claim batches, and each
per-claim batch starts with the PVC delete, followed — when anything
follows at all — by the bound PV delete and then only pod deletes, so no
pod delete ever precedes its claim's PVC or PV delete. -/
theorem C5_ordering (o : Oracle) (s : Snapshot) (n : String) :
    cleanupVolumesByNode o s n = (pvcsByNode s n).flatMap (deleteVolumes o s) ∧
    ∀ claim : PVC, ∃ t, deleteVolumes o s claim = pvcCall claim :: t ∧
      (t = [] ∨ ∃ u, t = DeleteCall.pv claim.volumeName :: u ∧
        ∀ d, d ∈ u → ∃ p, p ∈ podsByPvc s claim.name ∧ d = DeleteCall.pod p.ns p.name) := by
  refine ⟨rfl, fun claim => ?_⟩
  unfold deleteVolumes pvcCall
  by_cases h1 : o (DeleteCall.pvc claim.ns claim.name) = false
  · exact ⟨[], by simp [h1], Or.inl rfl⟩
  · by_cases h2 : claim.volumeName = ("")
    · exact ⟨[], by simp [h1, h2], Or.inl rfl⟩
    · by_cases h3 : o (DeleteCall.pv claim.volumeName) = false
      · exact ⟨[DeleteCall.pv claim.volumeName], by simp [h1, h2, h3],
          Or.inr ⟨[], rfl, by simp⟩⟩
      · refine ⟨DeleteCall.pv claim.volumeName ::
            (podsByPvc s claim.name).map (fun p => DeleteCall.pod p.ns p.name),
          by simp [h1, h2, h3], Or.inr ⟨_, rfl, ?_⟩⟩
        intro d hd
        obtain ⟨p, hp, hdp⟩ := List.mem_map.mp hd
        exact ⟨p, hp, hdp.symm⟩

theorem owned_of_mem_pvcNodeKeys (claim : PVC) (n : String)
    (h : n ∈ pvcNodeKeys claim) :
    annGet claim.anns provisionerAnnKey = expectedProvisionerValue := by
  unfold pvcNodeKeys at h
  by_cases ho : annGet claim.anns provisionerAnnKey = expectedProvisionerValue
  · exact ho
  · simp [ho] at h

/-- C3 (amended): every PVC delete issued by the event path or the startup
reconciliation of `src/main.go` targets a stored PVC whose provisioner
annotation equals the expected value — but PV deletes are issued for the
bound volume name of such a PVC without inspecting the PV's own
annotations; and every PVC delete of the `part_000` variant targets the
claim reference of a PV whose own annotations match that variant's node
and provisioner keys, without inspecting the PVC's annotations. -/
theorem C3_scope_safety (o : Oracle) (s : Snapshot) (n : String) (d : DeleteCall) :
    (d ∈ cleanupVolumesByNode o s n ∨ d ∈ startupReconcile o s →
      (∀ a b, d = DeleteCall.pvc a b →
        ∃ claim, claim ∈ s.pvcs ∧ claim.ns = a ∧ claim.name = b ∧
          annGet claim.anns provisionerAnnKey = expectedProvisionerValue) ∧
      (∀ v, d = DeleteCall.pv v →
        ∃ claim, claim ∈ s.pvcs ∧ claim.volumeName = v ∧
          annGet claim.anns provisionerAnnKey = expectedProvisionerValue)) ∧
    (d ∈ cleanupPVCsForNode s n →
      ∀ a b, d = DeleteCall.pvc a b →
        ∃ vol, vol ∈ s.pvs ∧ vol.claimRef = some (a, b) ∧
          annGet vol.anns part0SelectedNodeAnnKey = n ∧
          annGet vol.anns part0ProvisionerAnnKey = part0ExpectedProvisionerValue) := by
  constructor
  · intro hmem
    have hcd : ∃ claim, claim ∈ s.pvcs ∧
        annGet claim.anns provisionerAnnKey = expectedProvisionerValue ∧
        d ∈ deleteVolumes o s claim := by
      rcases hmem with hm | hm
      · unfold cleanupVolumesByNode at hm
        obtain ⟨claim, hc, hd⟩ := List.mem_flatMap.mp hm
        have hc2 := List.mem_filter.mp hc
        have hkeys : n ∈ pvcNodeKeys claim := by simpa using hc2.2
        exact ⟨claim, hc2.1, owned_of_mem_pvcNodeKeys claim n hkeys, hd⟩
      · unfold startupReconcile at hm
        obtain ⟨claim, hc, hd⟩ := List.mem_flatMap.mp hm
        by_cases ho : annGet claim.anns provisionerAnnKey = expectedProvisionerValue
        · refine ⟨claim, hc, ho, ?_⟩
          by_cases hn : nodeExists s (annGet claim.anns selectedNodeAnnKey) = true
          · simp [ho, hn] at hd
          · rw [if_neg (not_not_intro ho), if_neg hn] at hd
            exact hd
        · simp [ho] at hd
    obtain ⟨claim, hcmem, howned, hd⟩ := hcd
    constructor
    · intro a b hdab
      rcases mem_deleteVolumes_cases o s claim d hd with h | ⟨_, h⟩ | ⟨_, p, _, h⟩
      · rw [hdab] at h
        unfold pvcCall at h
        injection h with h1 h2
        exact ⟨claim, hcmem, h1.symm, h2.symm, howned⟩
      · rw [hdab] at h
        simp at h
      · rw [hdab] at h
        simp at h
    · intro v hdv
      rcases mem_deleteVolumes_cases o s claim d hd with h | ⟨hb, h⟩ | ⟨_, p, _, h⟩
      · rw [hdv] at h
        unfold pvcCall at h
        simp at h
      · rw [hdv] at h
        injection h with h1
        exact ⟨claim, hcmem, h1.symm, howned⟩
      · rw [hdv] at h
        simp at h
  · intro hmem a b hdab
    unfold cleanupPVCsForNode at hmem
    obtain ⟨vol, hv, hin⟩ := List.mem_flatMap.mp hmem
    by_cases hcond : ¬ (annGet vol.anns part0SelectedNodeAnnKey = n) ∨
        ¬ (annGet vol.anns part0ProvisionerAnnKey = part0ExpectedProvisionerValue)
    · rw [if_pos hcond] at hin
      cases hin
    · rw [if_neg hcond] at hin
      push_neg at hcond
      cases hcr : vol.claimRef with
      | none =>
        rw [hcr] at hin
        cases hin
      | some r =>
        rw [hcr] at hin
        simp at hin
        rw [hdab] at hin
        injection hin with h1 h2
        refine ⟨vol, hv, ?_, hcond.1, hcond.2⟩
        rw [hcr]
        exact congrArg some (Prod.ext h1.symm h2.symm)

/-- Witness for C3: the PVC delete of the bound claim's batch resolves back
to a stored, in-scope PVC. -/
theorem C3_scope_safety_witness :
    ∃ claim, claim ∈ snapPvUnowned.pvcs ∧ claim.ns = ("ns1") ∧
      claim.name = ("data-0") ∧
      annGet claim.anns provisionerAnnKey = expectedProvisionerValue :=
  (((C3_scope_safety allOk snapPvUnowned ("node-a")
      (DeleteCall.pvc ("ns1") ("data-0"))).1 (Or.inl (by decide))).1)
    ("ns1") ("data-0") rfl

/-- C3 counterexample: the PV pv-1 carries no provisioner annotation at all,
yet cleaning up node-a deletes it, because the engine follows the claim's
bound volume name without inspecting the PV. -/
theorem C3_cex :
    pvPlain ∈ snapPvUnowned.pvs ∧
    ¬ (annGet pvPlain.anns provisionerAnnKey = expectedProvisionerValue) ∧
    DeleteCall.pv (pvPlain.name)
      ∈ cleanupVolumesByNode allOk snapPvUnowned ("node-a") := by
  decide

theorem startup_head_count (s : Snapshot) (c claim : PVC) :
    (if ¬ (annGet c.anns provisionerAnnKey = expectedProvisionerValue)
        then ([] : List DeleteCall)
      else if nodeExists s (annGet c.anns selectedNodeAnnKey) then []
      else deleteVolumes allOk s c).count (pvcCall claim)
    = if (annGet c.anns provisionerAnnKey = expectedProvisionerValue ∧
          ¬ (nodeExists s (annGet c.anns selectedNodeAnnKey) = true) ∧
          pvcKey claim = pvcKey c) then 1 else 0 := by
  by_cases h1 : annGet c.anns provisionerAnnKey = expectedProvisionerValue
  · by_cases h2 : nodeExists s (annGet c.anns selectedNodeAnnKey) = true
    · simp [h1, h2]
    · rw [if_neg (not_not_intro h1), if_neg h2, count_pvcCall_deleteVolumes]
      by_cases h3 : pvcKey claim = pvcKey c
      · rw [if_pos h3, if_pos ⟨h1, h2, h3⟩]
      · rw [if_neg h3, if_neg (fun hc => h3 hc.2.2)]
  · simp [h1]

theorem startup_count_zero (s : Snapshot) (l : List PVC) (claim : PVC)
    (h : ∀ c ∈ l, ¬ (pvcKey c = pvcKey claim)) :
    (l.flatMap (fun c =>
      if ¬ (annGet c.anns provisionerAnnKey = expectedProvisionerValue) then []
      else if nodeExists s (annGet c.anns selectedNodeAnnKey) then []
      else deleteVolumes allOk s c)).count (pvcCall claim) = 0 := by
  induction l with
  | nil => rfl
  | cons c rest ih =>
    rw [List.flatMap_cons, List.count_append, startup_head_count,
      ih (fun c' hc' => h c' (List.mem_cons_of_mem _ hc')),
      if_neg (fun hc => h c (List.mem_cons_self c rest) hc.2.2.symm)]

theorem startup_count_aux (s : Snapshot) (l : List PVC)
    (hnd : (l.map pvcKey).Nodup) (claim : PVC) (hmem : claim ∈ l) :
    (l.flatMap (fun c =>
      if ¬ (annGet c.anns provisionerAnnKey = expectedProvisionerValue) then []
      else if nodeExists s (annGet c.anns selectedNodeAnnKey) then []
      else deleteVolumes allOk s c)).count (pvcCall claim)
    = if (annGet claim.anns provisionerAnnKey = expectedProvisionerValue ∧
          ¬ (nodeExists s (annGet claim.anns selectedNodeAnnKey) = true)) then 1 else 0 := by
  induction l with
  | nil => cases hmem
  | cons c rest ih =>
    rw [List.flatMap_cons, List.count_append, startup_head_count]
    simp only [List.map_cons, List.nodup_cons] at hnd
    rcases List.mem_cons.mp hmem with rfl | hmem'
    · rw [startup_count_zero s rest claim ?hz]
      case hz =>
        intro c' hc' hkey
        exact hnd.1 (hkey ▸ List.mem_map_of_mem pvcKey hc')
      by_cases hcond : annGet claim.anns provisionerAnnKey = expectedProvisionerValue ∧
          ¬ (nodeExists s (annGet claim.anns selectedNodeAnnKey) = true)
      · rw [if_pos ⟨hcond.1, hcond.2, rfl⟩, if_pos hcond]
      · rw [if_neg (fun hc => hcond ⟨hc.1, hc.2.1⟩), if_neg hcond]
    · have hne : ¬ (pvcKey claim = pvcKey c) := by
        intro hkey
        exact hnd.1 (hkey ▸ List.mem_map_of_mem pvcKey hmem')
      rw [if_neg (fun hc => hne hc.2.2), ih hnd.2 hmem']
      simp

/-- C6 (amended): after the cache sync the startup pass walks every PVC; an
in-scope PVC whose anchor node is absent from the node store receives
exactly one delete of the PVC itself (its dependents following the
engine's per-claim behavior: the bound PV and, only when bound, the indexed
pods), while an in-scope PVC whose anchor node exists never has a delete
issued for the PVC itself — though its bound PV can still be deleted
through an orphaned claim sharing it. -/
theorem C6_startup_convergence (s : Snapshot) (claim : PVC)
    (hnd : (s.pvcs.map pvcKey).Nodup) (hmem : claim ∈ s.pvcs)
    (howned : annGet claim.anns provisionerAnnKey = expectedProvisionerValue) :
    (nodeExists s (annGet claim.anns selectedNodeAnnKey) = false →
      (startupReconcile allOk s).count (pvcCall claim) = 1) ∧
    (nodeExists s (annGet claim.anns selectedNodeAnnKey) = true →
      ¬ (pvcCall claim ∈ startupReconcile allOk s)) := by
  have haux := startup_count_aux s s.pvcs hnd claim hmem
  constructor
  · intro hfalse
    unfold startupReconcile
    rw [haux, if_pos ⟨howned, by simp [hfalse]⟩]
  · intro htrue
    have h0 : (startupReconcile allOk s).count (pvcCall claim) = 0 := by
      unfold startupReconcile
      rw [haux, if_neg]
      rintro ⟨_, hne⟩
      exact hne htrue
    exact fun hmem2 => absurd hmem2 (List.count_eq_zero.mp h0)

/-- Witness for C6: in the shared-volume snapshot, the orphaned claim is
deleted exactly once and the healthy claim's own delete is never issued. -/
theorem C6_startup_convergence_witness :
    (startupReconcile allOk snapShared).count (pvcCall pvcOrphanShared) = 1 ∧
    ¬ (pvcCall pvcHealthy ∈ startupReconcile allOk snapShared) :=
  ⟨(C6_startup_convergence snapShared pvcOrphanShared (by decide) (by decide)
      (by decide)).1 (by decide),
   (C6_startup_convergence snapShared pvcHealthy (by decide) (by decide)
      (by decide)).2 (by decide)⟩

/-- C6 counterexample: the dependents are not always deleted — the pod
referencing an unbound orphaned claim survives the startup pass — and a
healthy claim is not fully untouched: its bound PV is deleted through the
orphaned claim that shares it. -/
theorem C6_cex :
    (pvcUnbound ∈ snapUnbound.pvcs ∧
     nodeExists snapUnbound (annGet pvcUnbound.anns selectedNodeAnnKey) = false ∧
     podSameNs ∈ podsByPvc snapUnbound (pvcUnbound.name) ∧
     ¬ (DeleteCall.pod (podSameNs.ns) (podSameNs.name)
        ∈ startupReconcile allOk snapUnbound)) ∧
    (pvcHealthy ∈ snapShared.pvcs ∧
     nodeExists snapShared (annGet pvcHealthy.anns selectedNodeAnnKey) = true ∧
     DeleteCall.pv (pvcHealthy.volumeName) ∈ startupReconcile allOk snapShared) := by
  decide

/-- C7 (amended): an in-scope PVC whose selected-node annotation is absent
or empty is never resolved by the PVC-by-node index for a non-empty node
name, so the event path never deletes it; the startup reconciliation,
however, treats the empty anchor as a node missing from the store and does
delete such a PVC whenever no node named the empty string exists. -/
theorem C7_unanchored (s : Snapshot) (n : String) (claim : PVC)
    (hann : annGet claim.anns selectedNodeAnnKey = ("")) :
    (¬ (n = ("")) → ¬ (claim ∈ pvcsByNode s n)) ∧
    (claim ∈ s.pvcs →
      annGet claim.anns provisionerAnnKey = expectedProvisionerValue →
      nodeExists s ("") = false →
      pvcCall claim ∈ startupReconcile allOk s) := by
  constructor
  · intro hn hmem
    have h2 := List.mem_filter.mp hmem
    have hkeys : n ∈ pvcNodeKeys claim := by simpa using h2.2
    unfold pvcNodeKeys at hkeys
    by_cases ho : annGet claim.anns provisionerAnnKey = expectedProvisionerValue
    · rw [if_neg (not_not_intro ho), hann] at hkeys
      simp at hkeys
      exact hn hkeys
    · simp [ho] at hkeys
  · intro hmem howned hnode
    unfold startupReconcile
    refine List.mem_flatMap.mpr ⟨claim, hmem, ?_⟩
    rw [if_neg (not_not_intro howned), hann, if_neg (by simp [hnode])]
    exact pvcCall_mem_deleteVolumes allOk s claim

/-- Witness for C7: the unanchored claim is invisible to the index for
node-b yet the startup pass deletes it. -/
theorem C7_unanchored_witness :
    ¬ (pvcNoAnchor ∈ pvcsByNode snapNoAnchor ("node-b")) ∧
    pvcCall pvcNoAnchor ∈ startupReconcile allOk snapNoAnchor :=
  ⟨(C7_unanchored snapNoAnchor ("node-b") pvcNoAnchor (by decide)).1 (by decide),
   (C7_unanchored snapNoAnchor ("node-b") pvcNoAnchor (by decide)).2
      (by decide) (by decide) (by decide)⟩

/-- C7 counterexample: the claim states that no cleanup path ever deletes an
unanchored in-scope PVC; the startup reconciliation does delete it, since
no node named the empty string exists in the store. -/
theorem C7_cex :
    annGet pvcNoAnchor.anns selectedNodeAnnKey = ("") ∧
    annGet pvcNoAnchor.anns provisionerAnnKey = expectedProvisionerValue ∧
    pvcCall pvcNoAnchor ∈ startupReconcile allOk snapNoAnchor := by
  decide

/-- C8: after any sequence of add/update/delete notifications applied to the
(spec-modelled) incrementally maintained store, the PVC-by-node lookup for
node n returns exactly the stored PVCs whose provisioner annotation equals
the expected value and whose current selected-node annotation equals n;
out-of-scope PVCs extract no key and so never appear. -/
theorem C8_index_correctness (evs : List PvcEvent) (n : String) (claim : PVC) :
    claim ∈ byNodeLookup (applyEvents evs) n ↔
      claim ∈ (applyEvents evs).items ∧
        annGet claim.anns provisionerAnnKey = expectedProvisionerValue ∧
        annGet claim.anns selectedNodeAnnKey = n := by
  rw [mem_byNodeLookup _ (indexGood_applyEvents evs)]
  unfold pvcNodeKeys
  by_cases ho : annGet claim.anns provisionerAnnKey = expectedProvisionerValue
  · rw [if_neg (not_not_intro ho)]
    constructor
    · rintro ⟨hmem, hn⟩
      simp at hn
      exact ⟨hmem, ho, hn.symm⟩
    · rintro ⟨hmem, _, hn⟩
      exact ⟨hmem, by simp [hn]⟩
  · rw [if_pos ho]
    constructor
    · rintro ⟨_, hn⟩
      cases hn
    · rintro ⟨_, ho', _⟩
      exact absurd ho' ho

/-- Witness for C8: adding the bound claim, updating it, and deleting an
unrelated key leaves it visible under node-a. -/
theorem C8_index_correctness_witness :
    pvcBound ∈ byNodeLookup
      (applyEvents [PvcEvent.add pvcBound, PvcEvent.update pvcBound,
        PvcEvent.del (("ns9"), ("gone"))]) ("node-a") :=
  (C8_index_correctness [PvcEvent.add pvcBound, PvcEvent.update pvcBound,
      PvcEvent.del (("ns9"), ("gone"))] ("node-a") pvcBound).mpr
    ⟨by decide, by decide, by decide⟩

/-- C9 (amended): under the consistency assumption that an in-scope PVC is
anchored to node n exactly when some stored PV carrying the `part_000`
annotations for n holds a claim reference to it, the two resolution
strategies resolve the same set of PVCs; the delete calls nevertheless
differ — the PV-scan variant issues only PVC deletes, never a PV or Pod
delete. -/
theorem C9_strategy_equivalence (s : Snapshot) (n : String)
    (hcons : ∀ claim ∈ s.pvcs, (n ∈ pvcNodeKeys claim ↔
      ∃ vol, vol ∈ s.pvs ∧ annGet vol.anns part0SelectedNodeAnnKey = n ∧
        annGet vol.anns part0ProvisionerAnnKey = part0ExpectedProvisionerValue ∧
        vol.claimRef = some (pvcKey claim))) :
    (∀ claim, claim ∈ pvcsByNode s n ↔ claim ∈ resolveByPVScan s n) ∧
    (∀ d, d ∈ cleanupPVCsForNode s n → ∃ a b, d = DeleteCall.pvc a b) := by
  constructor
  · intro claim
    constructor
    · intro hmem
      have h2 := List.mem_filter.mp hmem
      have hkeys : n ∈ pvcNodeKeys claim := by simpa using h2.2
      obtain ⟨vol, hv, hsel, hprov, hcr⟩ := (hcons claim h2.1).mp hkeys
      unfold resolveByPVScan
      refine List.mem_flatMap.mpr ⟨vol, hv, ?_⟩
      rw [if_neg (by push_neg; exact ⟨hsel, hprov⟩), hcr]
      exact List.mem_filter.mpr ⟨h2.1, by simp⟩
    · intro hmem
      unfold resolveByPVScan at hmem
      obtain ⟨vol, hv, hin⟩ := List.mem_flatMap.mp hmem
      by_cases hcond : ¬ (annGet vol.anns part0SelectedNodeAnnKey = n) ∨
          ¬ (annGet vol.anns part0ProvisionerAnnKey = part0ExpectedProvisionerValue)
      · rw [if_pos hcond] at hin
        cases hin
      · rw [if_neg hcond] at hin
        push_neg at hcond
        cases hcr : vol.claimRef with
        | none =>
          rw [hcr] at hin
          cases hin
        | some r =>
          rw [hcr] at hin
          have h2 := List.mem_filter.mp hin
          have hkey : pvcKey claim = r := by simpa using h2.2
          refine List.mem_filter.mpr ⟨h2.1, ?_⟩
          have hk : n ∈ pvcNodeKeys claim :=
            (hcons claim h2.1).mpr ⟨vol, hv, hcond.1, hcond.2, by rw [hcr, hkey]⟩
          simpa using hk
  · intro d hd
    unfold cleanupPVCsForNode at hd
    obtain ⟨vol, hv, hin⟩ := List.mem_flatMap.mp hd
    by_cases hcond : ¬ (annGet vol.anns part0SelectedNodeAnnKey = n) ∨
        ¬ (annGet vol.anns part0ProvisionerAnnKey = part0ExpectedProvisionerValue)
    · rw [if_pos hcond] at hin
      cases hin
    · rw [if_neg hcond] at hin
      cases hcr : vol.claimRef with
      | none =>
        rw [hcr] at hin
        cases hin
      | some r =>
        rw [hcr] at hin
        simp at hin
        exact ⟨r.1, r.2, hin⟩

/-- Witness for C9: on a consistent snapshot pairing the bound claim with
its `part_000`-annotated PV, the PV-scan strategy resolves the claim too. -/
theorem C9_strategy_equivalence_witness :
    pvcBound ∈ resolveByPVScan snapConsistent ("node-a") :=
  ((C9_strategy_equivalence snapConsistent ("node-a") (by decide)).1 pvcBound).mp
    (by decide)

/-- C9 counterexample: on a snapshot with no PVs the index strategy resolves
the bound claim while the PV-scan strategy resolves nothing; and even on
the consistent snapshot the delete calls differ — the index-driven engine
deletes the bound PV, the PV-scan variant never does. -/
theorem C9_cex :
    pvcBound ∈ pvcsByNode snapNoPv ("node-a") ∧
    ¬ (pvcBound ∈ resolveByPVScan snapNoPv ("node-a")) ∧
    DeleteCall.pv (pvcBound.volumeName)
      ∈ cleanupVolumesByNode allOk snapConsistent ("node-a") ∧
    ¬ (DeleteCall.pv (pvcBound.volumeName)
      ∈ cleanupPVCsForNode snapConsistent ("node-a")) := by
  decide

/-- C10: a second cleanup run for the same node, over the state the first
run leaves behind (every object whose delete call succeeded is gone from
the store), issues a subset of the first run's delete calls; the run is a
total function of the snapshot, so the second call never fails, matching
the requirement that deletes on already-absent objects are tolerated. -/
theorem C10_second_run_subset (o : Oracle) (s : Snapshot) (n : String) :
    cleanupVolumesByNode o
        (applyDeletes s ((cleanupVolumesByNode o s n).filter o)) n
      ⊆ cleanupVolumesByNode o s n := by
  intro d hd
  have hd' : d ∈ (pvcsByNode (applyDeletes s ((cleanupVolumesByNode o s n).filter o)) n).flatMap
      (deleteVolumes o (applyDeletes s ((cleanupVolumesByNode o s n).filter o))) := hd
  obtain ⟨claim, hclaim, hdc⟩ := List.mem_flatMap.mp hd'
  have hc2 := List.mem_filter.mp hclaim
  have hpvcs : (applyDeletes s ((cleanupVolumesByNode o s n).filter o)).pvcs
      = s.pvcs.filter
        (fun c => ¬ (pvcCall c ∈ (cleanupVolumesByNode o s n).filter o)) := rfl
  rw [hpvcs] at hc2
  have hc3 := List.mem_filter.mp hc2.1
  have hmem1 : claim ∈ pvcsByNode s n := List.mem_filter.mpr ⟨hc3.1, hc2.2⟩
  have hsub : ∀ x ∈ deleteVolumes o s claim, x ∈ cleanupVolumesByNode o s n :=
    fun x hx => List.mem_flatMap.mpr ⟨claim, hmem1, hx⟩
  have hc1mem : pvcCall claim ∈ cleanupVolumesByNode o s n :=
    hsub _ (pvcCall_mem_deleteVolumes o s claim)
  have hnotdel : ¬ (pvcCall claim ∈ (cleanupVolumesByNode o s n).filter o) := by
    have h4 := hc3.2
    simp only [decide_eq_true_eq] at h4
    exact h4
  have hfail : o (pvcCall claim) = false := by
    by_cases hb : o (pvcCall claim) = true
    · exact absurd (List.mem_filter.mpr ⟨hc1mem, hb⟩) hnotdel
    · simpa using hb
  rw [deleteVolumes_of_pvcFail o _ claim hfail] at hdc
  simp at hdc
  rw [hdc]
  exact hc1mem

/-- Witness for C10: under an oracle failing every PVC delete, nothing is
removed from the store, and the second run reissues the PVC delete that is
indeed part of the first run's calls. -/
theorem C10_second_run_subset_witness :
    pvcCall pvcBound ∈ cleanupVolumesByNode pvcFailOracle snapBoundPod ("node-a") :=
  C10_second_run_subset pvcFailOracle snapBoundPod ("node-a") (by decide)
